import Mathlib

/-!
Shallow embedding of the SaveYourStuff bookmarking backend
(Express + Supabase/PostgREST, TypeScript sources under src/) together
with proofs about the claims of its natural-language specification.

The database is modelled as explicit lists of rows; Supabase query-builder
calls become pure functions on that state.  PostgREST behaviour that the
repository's own code relies on is modelled as documented:
`.single()` yields an error when the filtered result does not hold exactly
one row, and unique-constraint violations yield an error whose message
contains the substring "duplicate key".
-/

namespace SYS

/-- JavaScript-style whitespace test used by `String.prototype.trim`
(the inputs of this code base only ever carry ASCII whitespace). -/
def jsIsWs (c : Char) : Bool :=
  c == ' ' || c == '\t' || c == '\n' || c == '\r'

/-- Character-list version of `String.prototype.trim`: drop whitespace
from both ends. -/
def jsTrimList (cs : List Char) : List Char :=
  ((cs.dropWhile jsIsWs).reverse.dropWhile jsIsWs).reverse

/-- JavaScript `name.trim()`. -/
def jsTrim (s : String) : String :=
  ⟨jsTrimList s.data⟩

/-- Boolean prefix test on character lists. -/
def startsWithChars : List Char → List Char → Bool
  | [], _ => true
  | _ :: _, [] => false
  | p :: ps, h :: hs => p == h && startsWithChars ps hs

/-- Boolean infix test on character lists. -/
def containsChars (pat : List Char) : List Char → Bool
  | [] => startsWithChars pat []
  | h :: hs => startsWithChars pat (h :: hs) || containsChars pat hs

/-- JavaScript `hay.includes(pat)`. -/
def jsIncludes (hay pat : String) : Bool :=
  containsChars pat.data hay.data

/-- Case-insensitive substring match, the semantics of the PostgREST
`ilike('%pat%')` filter used for title search. -/
def ilikeContains (hay pat : String) : Bool :=
  containsChars (pat.data.map Char.toLower) (hay.data.map Char.toLower)

/-- JavaScript truthiness of an optional string value: `undefined` and
the empty string are falsy. -/
def strTruthy : Option String → Option String
  | some s => if s = "" then none else some s
  | none => none

/-- JavaScript `x || d` on an optional number: `undefined` and `0` are
falsy and fall back to the default. -/
def jsOrNat (x : Option Nat) (d : Nat) : Nat :=
  match x with
  | some n => if n = 0 then d else n
  | none => d

/-- Errors produced by the modelled PostgREST layer. -/
inductive DbErr where
  /-- Unique-constraint violation; its message contains "duplicate key". -/
  | duplicateKey : DbErr
  /-- `.single()` found zero (or several) rows (PostgREST PGRST116). -/
  | noRows : DbErr
  /-- Malformed filter value (e.g. an invalid timestamp literal). -/
  | badQuery : DbErr
deriving Repr, DecidableEq

/-- Message text of a modelled PostgREST error, as the service code
inspects it via `error.message.includes('duplicate key')`. -/
def DbErr.msg : DbErr → String
  | .duplicateKey => "duplicate key value violates unique constraint"
  | .noRows => "JSON object requested, multiple (or no) rows returned"
  | .badQuery => "invalid input syntax for type timestamp with time zone"

/-- The `AppError` of `src/backend/src/middleware/errorHandler` as used by
every service: a message plus an HTTP status code. -/
structure AppError where
  message : String
  statusCode : Nat
deriving Repr, DecidableEq

instance {ε α : Type} [DecidableEq ε] [DecidableEq α] : DecidableEq (Except ε α) :=
  fun x y =>
    match x, y with
    | .ok a, .ok b => decidable_of_iff (a = b) (by simp)
    | .error a, .error b => decidable_of_iff (a = b) (by simp)
    | .ok _, .error _ => isFalse fun hh => Except.noConfusion hh
    | .error _, .ok _ => isFalse fun hh => Except.noConfusion hh

/-- Supabase `.single()`: succeed exactly when the filtered result holds
one row, otherwise produce an error (never a null payload). -/
def single {α : Type} (rows : List α) : Except DbErr α :=
  match rows with
  | [r] => .ok r
  | _ => .error .noRows

/-- Row of the `tags` table (database-migration-tags.sql): UUIDs are
abstracted to naturals, timestamps to milliseconds. -/
structure TagRow where
  id : Nat
  user_id : String
  name : String
  created_at : Nat
deriving Repr, DecidableEq

/-- Row of the `bookmarks` table (database-setup.sql). -/
structure BookmarkRow where
  id : Nat
  user_id : String
  url : String
  title : String
  summary : Option String
  category : Option String
  created_at : Nat
deriving Repr, DecidableEq

/-- Row of the `bookmark_tags` junction table
(database-migration-tags.sql lines 18-24).  The DDL declares plain
`bookmark_id`/`tag_id` columns with a UNIQUE pair constraint and no
foreign-key references, hence no `ON DELETE CASCADE`. -/
structure BookmarkTagRow where
  id : Nat
  bookmark_id : Nat
  tag_id : Nat
  created_at : Nat
deriving Repr, DecidableEq

/-- Row of the legacy `categories` table (database-setup.sql). -/
structure CategoryRow where
  id : Nat
  user_id : String
  name : String
  created_at : Nat
deriving Repr, DecidableEq

/-- Database state: the four tables, a fresh-id source standing for
`gen_random_uuid()`, and a clock value standing for `NOW()`. -/
structure DB where
  bookmarks : List BookmarkRow
  tags : List TagRow
  bookmark_tags : List BookmarkTagRow
  categories : List CategoryRow
  nextId : Nat
  now : Nat
deriving Repr, DecidableEq

/-- `supabase.from('tags').select('*').eq('user_id', u).eq('name', m)`. -/
def findTagRows (db : DB) (u m : String) : List TagRow :=
  db.tags.filter fun t => t.user_id == u && t.name == m

/-- `INSERT INTO tags (user_id, name)` under the `UNIQUE(user_id, name)`
constraint of the schema. -/
def insertTagRow (db : DB) (u m : String) : Except DbErr (TagRow × DB) :=
  if (findTagRows db u m).isEmpty then
    let row : TagRow := ⟨db.nextId, u, m, db.now⟩
    .ok (row, { db with tags := db.tags ++ [row], nextId := db.nextId + 1 })
  else
    .error .duplicateKey

/-- `INSERT INTO bookmark_tags (bookmark_id, tag_id)` under the
`UNIQUE(bookmark_id, tag_id)` constraint; the schema has no foreign keys,
so no referential check is made. -/
def insertBookmarkTagRow (db : DB) (bid tid : Nat) :
    Except DbErr (BookmarkTagRow × DB) :=
  if db.bookmark_tags.any (fun r => r.bookmark_id == bid && r.tag_id == tid) then
    .error .duplicateKey
  else
    let row : BookmarkTagRow := ⟨db.nextId, bid, tid, db.now⟩
    .ok (row, { db with bookmark_tags := db.bookmark_tags ++ [row],
                        nextId := db.nextId + 1 })

/-- `createTag` of the tag service (src/unnamed/part_002 lines 21-74), with
the find query and the insert/retry evaluated against possibly different
database snapshots `db₀` (at the initial find) and `db₁` (at the insert and
the duplicate-key retry), so that a concurrent insert between the two
statements is expressible.  The sequential call is `createTag` below. -/
def createTagRace (db₀ db₁ : DB) (userId name : String) :
    Except AppError (TagRow × DB) :=
  let trimmedName := jsTrim name
  match single (findTagRows db₀ userId trimmedName) with
  | .ok existingTag => .ok (existingTag, db₁)
  | .error _ =>
    match insertTagRow db₁ userId trimmedName with
    | .ok (data, db₂) => .ok (data, db₂)
    | .error e =>
      if jsIncludes e.msg "duplicate key" then
        match single (findTagRows db₁ userId trimmedName) with
        | .ok retryTag => .ok (retryTag, db₁)
        | .error _ =>
          .error ⟨"Failed to create or find tag: " ++ trimmedName, 400⟩
      else
        .error ⟨e.msg, 400⟩

/-- `createTag(userId, name)` run without interference. -/
def createTag (db : DB) (userId name : String) : Except AppError (TagRow × DB) :=
  createTagRace db db userId name

/-- `updateTag` (src/unnamed/part_002 lines 76-97):
`UPDATE tags SET name = name.trim() WHERE id = tagId AND user_id = userId`
followed by `.select().single()`.  When no row matches, `.single()`
produces an error, so the code's `if (error) throw new AppError(message,
400)` fires and its later `if (!data) → 404` check is unreachable. -/
def updateTag (db : DB) (tagId : Nat) (userId name : String) :
    Except AppError (TagRow × DB) :=
  let newName := jsTrim name
  let hit : TagRow → Bool := fun t => t.id == tagId && t.user_id == userId
  if (db.tags.any hit) &&
      db.tags.any (fun t => t.user_id == userId && t.name == newName && !(hit t)) then
    .error ⟨DbErr.duplicateKey.msg, 400⟩
  else
    let updated := db.tags.map fun t => if hit t then { t with name := newName } else t
    match single (updated.filter hit) with
    | .error e => .error ⟨e.msg, 400⟩
    | .ok data => .ok (data, { db with tags := updated })

/-- `deleteTag` (src/unnamed/part_002 lines 99-116):
`DELETE FROM tags WHERE id = tagId AND user_id = userId`.  The code
comment says the delete "will cascade delete bookmark_tags relationships",
but the `bookmark_tags` DDL has no foreign key and no ON DELETE CASCADE,
so the junction table is untouched. -/
def deleteTag (db : DB) (tagId : Nat) (userId : String) : Except AppError DB :=
  .ok { db with tags := db.tags.filter fun t => !(t.id == tagId && t.user_id == userId) }

/-- Lexicographic comparison of character lists by code point, the
`ORDER BY t.name` collation of the view. -/
def charListLe : List Char → List Char → Bool
  | [], _ => true
  | _ :: _, [] => false
  | a :: as, b :: bs => if a = b then charListLe as bs else decide (a.val < b.val)

/-- Alphabetical order on tag names. -/
def strLe (a b : String) : Prop := charListLe a.data b.data = true

instance : DecidableRel strLe := fun a b => Bool.decEq (charListLe a.data b.data) true

/-- Tag-name column of the `bookmarks_with_tags` view
(database-migration-tags.sql lines 156-166) for one bookmark:
`array_agg(t.name ORDER BY t.name) FILTER (WHERE t.name IS NOT NULL)`
over the junction rows of the bookmark left-joined to `tags`; a dangling
junction row joins to NULL and is filtered out. -/
def viewTags (db : DB) (bid : Nat) : List String :=
  List.insertionSort strLe
    ((db.bookmark_tags.filter fun r => r.bookmark_id == bid).filterMap
      fun r => (db.tags.find? fun t => t.id == r.tag_id).map fun t => t.name)

/-- A row of the `bookmarks_with_tags` view. -/
structure BookmarkWithTags where
  id : Nat
  user_id : String
  url : String
  title : String
  summary : Option String
  category : Option String
  created_at : Nat
  tags : List String
deriving Repr, DecidableEq

/-- View row for one base bookmark row. -/
def viewRow (db : DB) (b : BookmarkRow) : BookmarkWithTags :=
  ⟨b.id, b.user_id, b.url, b.title, b.summary, b.category, b.created_at,
    viewTags db b.id⟩

/-- `getBookmarkWithTags` (bookmarkService.ts lines 108-124): query the
view filtered only by `.eq('id', bookmarkId)` — no user filter — with
`.single()`.  As in `updateTag`, the zero-row case surfaces as the 400
wrap of the `.single()` error; the 404 branch is unreachable. -/
def getBookmarkWithTags (db : DB) (bid : Nat) : Except AppError BookmarkWithTags :=
  match single ((db.bookmarks.filter fun b => b.id == bid).map (viewRow db)) with
  | .error e => .error ⟨e.msg, 400⟩
  | .ok data => .ok data

/-- Body of one iteration of the `addTagsToBookmark` loop
(bookmarkService.ts lines 132-189): find-or-create the tag for
`(userId, tagName.trim())`, re-querying on a duplicate-key insert error,
then link it to the bookmark ignoring a duplicate-link error. -/
def addOneTagToBookmark (db : DB) (bid : Nat) (userId tagName : String) :
    Except AppError DB :=
  let trimmedTagName := jsTrim tagName
  let tagRes : Except AppError (TagRow × DB) :=
    match single (findTagRows db userId trimmedTagName) with
    | .ok tag => .ok (tag, db)
    | .error _ =>
      match insertTagRow db userId trimmedTagName with
      | .ok (newTag, db₂) => .ok (newTag, db₂)
      | .error createError =>
        if jsIncludes createError.msg "duplicate key" then
          match single (findTagRows db userId trimmedTagName) with
          | .ok existingTag => .ok (existingTag, db)
          | .error _ =>
            .error ⟨"Failed to find or create tag: " ++ trimmedTagName, 400⟩
        else
          .error ⟨createError.msg, 400⟩
  match tagRes with
  | .error e => .error e
  | .ok (tag, db₂) =>
    match insertBookmarkTagRow db₂ bid tag.id with
    | .ok (_, db₃) => .ok db₃
    | .error linkError =>
      if jsIncludes linkError.msg "duplicate key" then .ok db₂
      else .error ⟨linkError.msg, 400⟩

/-- `addTagsToBookmark` (bookmarkService.ts lines 126-194): the sequential
per-name loop. -/
def addTagsToBookmark (db : DB) (bid : Nat) (tagNames : List String)
    (userId : String) : Except AppError DB :=
  match tagNames with
  | [] => .ok db
  | n :: rest =>
    match addOneTagToBookmark db bid userId n with
    | .error e => .error e
    | .ok db₂ => addTagsToBookmark db₂ bid rest userId

/-- The clearing delete of `updateBookmarkTags` (lines 235-238):
`DELETE FROM bookmark_tags WHERE bookmark_id = bookmarkId` — filtered by
bookmark id only, with no ownership condition. -/
def clearBookmarkTags (db : DB) (bid : Nat) : DB :=
  { db with bookmark_tags := db.bookmark_tags.filter fun r => !(r.bookmark_id == bid) }

/-- `updateBookmarkTags` (bookmarkService.ts lines 228-253): clear all
junction rows of the bookmark, re-attach the supplied names when the list
is non-empty, then re-read from the view. -/
def updateBookmarkTags (db : DB) (bid : Nat) (tagNames : List String)
    (userId : String) : Except AppError (BookmarkWithTags × DB) :=
  let db₁ := clearBookmarkTags db bid
  match (if tagNames.length > 0 then addTagsToBookmark db₁ bid tagNames userId
         else .ok db₁) with
  | .error e => .error e
  | .ok db₂ =>
    match getBookmarkWithTags db₂ bid with
    | .error e => .error e
    | .ok row => .ok (row, db₂)

/-- Body of `POST /api/bookmarks` as the service receives it. -/
structure CreateBookmarkDto where
  url : String
  title : String
  summary : Option String := none
  category : Option String := none
  tags : Option (List String) := none
deriving Repr, DecidableEq

/-- The base-row insert of `createBookmark` (lines 11-21); the bookmarks
table has no unique constraint beyond the generated primary key, so the
insert always succeeds. -/
def insertBookmarkRow (db : DB) (userId : String) (d : CreateBookmarkDto) :
    BookmarkRow × DB :=
  let row : BookmarkRow :=
    ⟨db.nextId, userId, d.url, d.title, d.summary, d.category, db.now⟩
  (row, { db with bookmarks := db.bookmarks ++ [row], nextId := db.nextId + 1 })

/-- `createBookmark` (bookmarkService.ts lines 5-36): insert the row,
attach the tags when a non-empty list was supplied, then return the
bookmark re-read from the view. -/
def createBookmark (db : DB) (userId : String) (d : CreateBookmarkDto) :
    Except AppError (BookmarkWithTags × DB) :=
  let (bookmark, db₁) := insertBookmarkRow db userId d
  match (match d.tags with
         | some ts =>
           if ts.length > 0 then addTagsToBookmark db₁ bookmark.id ts userId
           else .ok db₁
         | none => .ok db₁) with
  | .error e => .error e
  | .ok db₂ =>
    match getBookmarkWithTags db₂ bookmark.id with
    | .error e => .error e
    | .ok row => .ok (row, db₂)

/-- A `startDate`/`endDate` query-string value: either a date-only string
(`YYYY-MM-DD`, carried as a day number since the epoch) or a full
timestamp containing a `T` (carried as milliseconds since the epoch).
Two values are string-equal iff they are structurally equal. -/
inductive DateParam where
  | dateOnly (day : Nat)
  | dateTime (ms : Nat)
deriving Repr, DecidableEq

/-- Milliseconds per UTC day. -/
def msPerDay : Nat := 86400000

/-- Millisecond instant of `d + "T00:00:00.000Z"`. -/
def dayStartMs (d : Nat) : Nat := d * msPerDay

/-- Millisecond instant of `d + "T23:59:59.999Z"`. -/
def dayEndMs (d : Nat) : Nat := d * msPerDay + 86399999

/-- Lower bound of the different-dates branch (lines 77-82): a value
already containing `T` is used as-is, otherwise `T00:00:00.000Z` is
appended. -/
def startBound : DateParam → Nat
  | .dateOnly d => dayStartMs d
  | .dateTime t => t

/-- Upper bound of the different-dates branch (lines 84-89). -/
def endBound : DateParam → Nat
  | .dateOnly d => dayEndMs d
  | .dateTime t => t

/-- Bounds of the equal-dates branch (lines 70-74): here the code appends
`T00:00:00.000Z` / `T23:59:59.999Z` without the `includes('T')` check, so
a full-timestamp value yields a malformed timestamp literal and the store
rejects the query. -/
def sameDayBounds : DateParam → Except DbErr (Nat × Nat)
  | .dateOnly d => .ok (dayStartMs d, dayEndMs d)
  | .dateTime _ => .error .badQuery

/-- Date condition of `getBookmarks` (lines 66-91) compiled to a
predicate on `created_at`, or a query error. -/
def datePred (sd ed : Option DateParam) : Except DbErr (Nat → Bool) :=
  match sd, ed with
  | some s, some e =>
    if s = e then
      match sameDayBounds s with
      | .ok (lo, hi) => .ok fun c => decide (lo ≤ c) && decide (c ≤ hi)
      | .error err => .error err
    else
      .ok fun c => decide (startBound s ≤ c) && decide (c ≤ endBound e)
  | some s, none => .ok fun c => decide (startBound s ≤ c)
  | none, some e => .ok fun c => decide (c ≤ endBound e)
  | none, none => .ok fun _ => true

/-- `BookmarkFilters` as the route builds it from the query string. -/
structure BookmarkFilters where
  search : Option String := none
  category : Option String := none
  tags : Option (List String) := none
  startDate : Option DateParam := none
  endDate : Option DateParam := none
  limit : Option Nat := none
  offset : Option Nat := none
deriving Repr, DecidableEq

/-- A row as the list query of `getBookmarks` addresses it.  The service
reads `from('bookmarks')` and filters on `title`, `category`,
`created_at` and the array column `tags`; `database-setup.sql` gives the
base `bookmarks` table no `tags` column (only the `bookmarks_with_tags`
view has one), so the model carries the referenced columns and gives the
per-tag `cs` (array-contains) condition its PostgREST meaning where such a
column exists. -/
structure ListRow where
  id : Nat
  user_id : String
  title : String
  category : Option String
  tags : List String
  created_at : Nat
deriving Repr, DecidableEq

/-- Conjunction of the non-pagination filters of `getBookmarks`
(lines 44-91).  The per-tag conditions `tags.cs.{t}` are combined with
`query.or(...)`, i.e. a single disjunction, so the tag condition holds as
soon as ANY requested tag is contained. -/
def rowMatches (userId : String) (f : BookmarkFilters) (dOk : Nat → Bool)
    (r : ListRow) : Bool :=
  r.user_id == userId
  && (match strTruthy f.search with
      | some s => ilikeContains r.title s
      | none => true)
  && (match strTruthy f.category with
      | some c => r.category == some c
      | none => true)
  && (match f.tags with
      | some ts => if ts.length > 0 then ts.any (fun t => r.tags.contains t) else true
      | none => true)
  && dOk r.created_at

/-- Descending order on `created_at`, the `order('created_at',
{ascending: false})` of the list query. -/
def createdDesc : ListRow → ListRow → Prop := fun a b => b.created_at ≤ a.created_at

instance : DecidableRel createdDesc := fun a b => Nat.decLe b.created_at a.created_at

instance : IsTotal ListRow createdDesc :=
  ⟨fun a b => Nat.le_total b.created_at a.created_at⟩

instance : IsTrans ListRow createdDesc :=
  ⟨fun _ _ _ h₁ h₂ => le_trans h₂ h₁⟩

/-- The filtered rows of the list query in descending creation order,
before the `range` pagination window is applied. -/
def matchedRows (table : List ListRow) (userId : String) (f : BookmarkFilters)
    (dOk : Nat → Bool) : List ListRow :=
  List.insertionSort createdDesc (table.filter (rowMatches userId f dOk))

/-- `getBookmarks` (bookmarkService.ts lines 38-106): filter, order
descending by `created_at`, then `range(offset, offset + limit - 1)` with
`limit = filters.limit || 20` and `offset = filters.offset || 0`. -/
def getBookmarks (table : List ListRow) (userId : String) (f : BookmarkFilters) :
    Except AppError (List ListRow) :=
  match datePred f.startDate f.endDate with
  | .error e => .error ⟨e.msg, 400⟩
  | .ok dOk =>
    let limit := jsOrNat f.limit 20
    let offset := jsOrNat f.offset 0
    .ok (((matchedRows table userId f dOk).drop offset).take limit)

/-- `createCategory` (categoryService, second document of
bookmarkService.ts source file): plain insert of the untrimmed name under
the `UNIQUE(user_id, name)` constraint of `categories`. -/
def createCategory (db : DB) (userId name : String) :
    Except AppError (CategoryRow × DB) :=
  if db.categories.any (fun c => c.user_id == userId && c.name == name) then
    .error ⟨DbErr.duplicateKey.msg, 400⟩
  else
    let row : CategoryRow := ⟨db.nextId, userId, name, db.now⟩
    .ok (row, { db with categories := db.categories ++ [row],
                        nextId := db.nextId + 1 })

/-- JSON response of a route handler: the HTTP status, the `success`
flag, the optional `data` payload, the optional `error` string (a JSON
`null` error field is modelled as `none`), and whether a service function
was invoked before the response was produced. -/
structure ApiResponse (α : Type) where
  status : Nat
  success : Bool
  data : Option α
  error : Option String
  calledService : Bool
deriving Repr, DecidableEq

/-- The `auth` middleware (src/backend/src/middleware/auth.ts): read the
`x-user-id` header; a missing or empty (falsy) value is rejected. -/
def authCheck (xUserId : Option String) : Option String :=
  strTruthy xUserId

/-- The 401 response the `auth` middleware sends. -/
def unauthorized {α : Type} : ApiResponse α :=
  ⟨401, false, none, some "Unauthorized", false⟩

/-- Modelled from the spec: the `errorHandler` middleware referenced by
every route is not among the sources under src/; per the spec, store
errors are re-thrown as a typed application error carrying an HTTP status
and serialized as `{success:false, error}` with that status. -/
def errorHandlerResp {α : Type} (e : AppError) : ApiResponse α :=
  ⟨e.statusCode, false, none, some e.message, true⟩

/-- Request of `POST /api/bookmarks`; body fields that the handler tests
for JavaScript truthiness are carried as optional strings. -/
structure PostBookmarkReq where
  xUserId : Option String
  url : Option String
  title : Option String
  summary : Option String := none
  category : Option String := none
  tags : Option (List String) := none
deriving Repr, DecidableEq

/-- `router.post('/')` of bookmarkRoutes.ts (lines 14-45): auth, then the
`!url || !title` validation, then the service call. -/
def postBookmarkHandler (db : DB) (req : PostBookmarkReq) :
    ApiResponse BookmarkWithTags × DB :=
  match authCheck req.xUserId with
  | none => (unauthorized, db)
  | some userId =>
    match strTruthy req.url, strTruthy req.title with
    | some url, some title =>
      match createBookmark db userId ⟨url, title, req.summary, req.category, req.tags⟩ with
      | .ok (bookmark, db₂) => (⟨201, true, some bookmark, none, true⟩, db₂)
      | .error e => (errorHandlerResp e, db)
    | _, _ => (⟨400, false, none, some "URL and title are required", false⟩, db)

/-- `router.get('/:id')` of bookmarkRoutes.ts (lines 84-96): auth, then
`getBookmarkWithTags(bookmarkId)`; the extracted user id is never passed
to the service. -/
def getBookmarkByIdHandler (db : DB) (xUserId : Option String) (bid : Nat) :
    ApiResponse BookmarkWithTags :=
  match authCheck xUserId with
  | none => unauthorized
  | some _ =>
    match getBookmarkWithTags db bid with
    | .ok bookmark => ⟨200, true, some bookmark, none, true⟩
    | .error e => errorHandlerResp e

/-- `router.put('/:id/tags')` of bookmarkRoutes.ts (lines 99-122): auth,
array check on the body, then `updateBookmarkTags`. -/
def putBookmarkTagsHandler (db : DB) (xUserId : Option String) (bid : Nat)
    (tags : Option (List String)) : ApiResponse BookmarkWithTags × DB :=
  match authCheck xUserId with
  | none => (unauthorized, db)
  | some userId =>
    match tags with
    | none => (⟨400, false, none, some "Tags must be an array of strings", false⟩, db)
    | some ts =>
      match updateBookmarkTags db bid ts userId with
      | .ok (bookmark, db₂) => (⟨200, true, some bookmark, none, true⟩, db₂)
      | .error e => (errorHandlerResp e, db)

/-- Validity test of the tag routes:
`!name || typeof name !== 'string' || name.trim().length === 0`. -/
def tagNameValid : Option String → Option String
  | some s => if s = "" then none else if jsTrim s = "" then none else some s
  | none => none

/-- `router.post('/')` of the tag routes (src/unnamed/part_003 lines
38-59). -/
def postTagHandler (db : DB) (xUserId name : Option String) :
    ApiResponse TagRow × DB :=
  match authCheck xUserId with
  | none => (unauthorized, db)
  | some userId =>
    match tagNameValid name with
    | none =>
      (⟨400, false, none, some "Tag name is required and must be a non-empty string", false⟩, db)
    | some n =>
      match createTag db userId n with
      | .ok (tag, db₂) => (⟨201, true, some tag, none, true⟩, db₂)
      | .error e => (errorHandlerResp e, db)

/-- `router.put('/:id')` of the tag routes (src/unnamed/part_003 lines
62-84). -/
def putTagHandler (db : DB) (xUserId : Option String) (tagId : Nat)
    (name : Option String) : ApiResponse TagRow × DB :=
  match authCheck xUserId with
  | none => (unauthorized, db)
  | some userId =>
    match tagNameValid name with
    | none =>
      (⟨400, false, none, some "Tag name is required and must be a non-empty string", false⟩, db)
    | some n =>
      match updateTag db tagId userId n with
      | .ok (tag, db₂) => (⟨200, true, some tag, none, true⟩, db₂)
      | .error e => (errorHandlerResp e, db)

/-- `router.post('/')` of categoryRoutes.ts (lines 21-42): auth, the
`!name` validation, then `createCategory`. -/
def postCategoryHandler (db : DB) (xUserId name : Option String) :
    ApiResponse CategoryRow × DB :=
  match authCheck xUserId with
  | none => (unauthorized, db)
  | some userId =>
    match strTruthy name with
    | none => (⟨400, false, none, some "Category name is required", false⟩, db)
    | some n =>
      match createCategory db userId n with
      | .ok (category, db₂) => (⟨201, true, some category, none, true⟩, db₂)
      | .error e => (errorHandlerResp e, db)

/-! Concrete database states used by the claim theorems. -/

/-- The empty store. -/
def emptyDb : DB := ⟨[], [], [], [], 0, 0⟩

/-- A store holding one bookmark (id 5, owner "u"), one tag (id 1, owner
"u", name "t") and the junction row (id 2) linking them. -/
def oneLinkDb : DB :=
  ⟨[⟨5, "u", "http://e", "b", none, none, 0⟩],
   [⟨1, "u", "t", 0⟩],
   [⟨2, 5, 1, 0⟩], [], 10, 0⟩

/-- C1: the spec claims AND semantics for the tag filter of
`getBookmarks` — a bookmark is returned only if it carries ALL requested
tags.  The code combines the per-tag contains conditions with
`query.or(...)`, so a bookmark carrying only `t1` is returned for the
request `tags=t1,t2`, refuting the claim (the code comment on the very
line says "AND logic"). -/
theorem c1_tag_filter_or_not_and :
    getBookmarks [⟨1, "u", "a", none, ["t1"], 0⟩] "u" { tags := some ["t1", "t2"] }
      = .ok [⟨1, "u", "a", none, ["t1"], 0⟩]
    ∧ ¬ ("t2" ∈ (["t1"] : List String)) := by decide

/-- C2: the spec claims `deleteTag` leaves no junction row referencing the
deleted tag.  The `bookmark_tags` DDL has no foreign key, hence no
ON DELETE CASCADE, and the service deletes from `tags` only: after
deleting tag 1 its junction row survives as a dangling reference (while
the bookmark row survives, as claimed, and the view hides the dangling
row from the displayed tag set). -/
theorem c2_delete_tag_junction_rows_survive :
    (deleteTag oneLinkDb 1 "u").map
        (fun d => (d.tags, d.bookmark_tags, d.bookmarks, viewTags d 5))
      = .ok ([], [⟨2, 5, 1, 0⟩], oneLinkDb.bookmarks, []) := by decide

/-- C8: the spec claims `updateTag` on an absent (tagId, userId) row
surfaces as HTTP 404.  With zero matched rows `.select().single()`
produces an error, so the service's `if (error) throw new AppError(message,
400)` fires first and the `if (!data) → 404` branch is unreachable: the
route answers 400, not 404. -/
theorem c8_update_tag_missing_row_is_400 :
    updateTag emptyDb 1 "u" "x" = .error ⟨DbErr.noRows.msg, 400⟩
    ∧ (putTagHandler emptyDb (some "u") 1 (some "x")).1
        = ⟨400, false, none, some DbErr.noRows.msg, true⟩ := by decide

/-- C9: posting a bookmark with tags ["x","y"] answers 201 with the
bookmark re-read from the aggregated view, whose `tags` is exactly
["x","y"] — duplicate-free and alphabetically sorted — and a subsequent
GET of that bookmark returns the same tag list. -/
theorem c9_create_then_get_returns_sorted_tags :
    (postBookmarkHandler emptyDb
        ⟨some "u", some "http://e", some "T", none, none, some ["x", "y"]⟩).1
      = ⟨201, true, some ⟨0, "u", "http://e", "T", none, none, 0, ["x", "y"]⟩, none, true⟩
    ∧ (getBookmarkByIdHandler
        (postBookmarkHandler emptyDb
          ⟨some "u", some "http://e", some "T", none, none, some ["x", "y"]⟩).2
        (some "u") 0).data
      = some ⟨0, "u", "http://e", "T", none, none, 0, ["x", "y"]⟩
    ∧ (["x", "y"] : List String).Nodup
    ∧ List.Sorted strLe ["x", "y"] := by decide

/-- Number of stored tag rows with key `(u, m)`. -/
def tagKeyCount (db : DB) (u m : String) : Nat :=
  (findTagRows db u m).length

/-- C3: neither the single-bookmark fetch nor the tag-set replacement
checks bookmark ownership: the GET-by-id route answers identically for any
two authenticated callers, and the clearing delete of `updateBookmarkTags`
removes every junction row of the bookmark even when the bookmark belongs
to a different user. -/
theorem c3_no_ownership_check :
    (∀ (db : DB) (bid : Nat) (u₁ u₂ : String), u₁ ≠ "" → u₂ ≠ "" →
        getBookmarkByIdHandler db (some u₁) bid = getBookmarkByIdHandler db (some u₂) bid)
    ∧ (∀ (db : DB) (bid : Nat) (u : String) (b : BookmarkRow)
        (row : BookmarkWithTags) (db' : DB),
        b ∈ db.bookmarks → b.id = bid → b.user_id ≠ u →
        updateBookmarkTags db bid [] u = .ok (row, db') →
        db'.bookmark_tags.filter (fun r => r.bookmark_id == bid) = []) := by
  constructor
  · intro db bid u₁ u₂ h₁ h₂
    simp [getBookmarkByIdHandler, authCheck, strTruthy, h₁, h₂]
  · intro db bid u b row db' _ _ _ h
    have hdb : db' = clearBookmarkTags db bid := by
      revert h
      simp only [updateBookmarkTags, List.length_nil, gt_iff_lt, Nat.lt_irrefl, if_false]
      cases hg : getBookmarkWithTags (clearBookmarkTags db bid) bid with
      | error e => intro h; cases h
      | ok r => intro h; cases h; rfl
    subst hdb
    simp only [clearBookmarkTags, List.filter_filter]
    apply List.filter_eq_nil_iff.mpr
    intro a _
    cases hab : a.bookmark_id == bid <;> simp [hab]

/-- C3 witness: concrete instances of both conjuncts on `oneLinkDb`. -/
theorem c3_no_ownership_check_witness :
    getBookmarkByIdHandler oneLinkDb (some "alice") 5
        = getBookmarkByIdHandler oneLinkDb (some "mallory") 5
    ∧ (DB.mk oneLinkDb.bookmarks oneLinkDb.tags [] [] 10 0).bookmark_tags.filter
        (fun r => r.bookmark_id == 5) = [] :=
  ⟨c3_no_ownership_check.1 oneLinkDb 5 "alice" "mallory" (by decide) (by decide),
   c3_no_ownership_check.2 oneLinkDb 5 "mallory"
     ⟨5, "u", "http://e", "b", none, none, 0⟩
     ⟨5, "u", "http://e", "b", none, none, 0, []⟩
     (DB.mk oneLinkDb.bookmarks oneLinkDb.tags [] [] 10 0)
     (by decide) (by decide) (by decide) (by decide)⟩

/-- C4: tag creation trims the name and is idempotent — when a row with
the trimmed key exists it is returned with the store unchanged, so two
creations leave exactly one row — and a concurrent duplicate insert
(modelled by a second snapshot `db₁` already holding the key at insert
time) is resolved by re-querying and returning the now-existing row. -/
theorem c4_create_tag_idempotent_race :
    (∀ (db : DB) (u n : String) (t : TagRow) (db₁ : DB),
        tagKeyCount db u (jsTrim n) ≤ 1 →
        createTag db u n = .ok (t, db₁) →
        tagKeyCount db₁ u (jsTrim n) = 1 ∧ createTag db₁ u n = .ok (t, db₁))
    ∧ (∀ (db₀ db₁ : DB) (u n : String) (t : TagRow),
        findTagRows db₀ u (jsTrim n) = [] →
        findTagRows db₁ u (jsTrim n) = [t] →
        createTagRace db₀ db₁ u n = .ok (t, db₁)) := by
  constructor
  · intro db u n t db₁ hle h
    rcases hc : findTagRows db u (jsTrim n) with _ | ⟨a, l⟩
    · have hfe : db.tags.filter
          (fun t => t.user_id == u && t.name == jsTrim n) = [] := by
        simpa [findTagRows] using hc
      have hins : createTag db u n =
          .ok (⟨db.nextId, u, jsTrim n, db.now⟩,
               { db with tags := db.tags ++ [⟨db.nextId, u, jsTrim n, db.now⟩],
                         nextId := db.nextId + 1 }) := by
        simp [createTag, createTagRace, hc, single, insertTagRow]
      rw [hins] at h
      cases h
      refine ⟨?_, ?_⟩
      · simp [tagKeyCount, findTagRows, List.filter_append, hfe]
      · simp [createTag, createTagRace, findTagRows, List.filter_append, hfe, single]
    · have hl : l = [] := by
        have hlen := hle
        simp only [tagKeyCount, hc, List.length_cons] at hlen
        exact List.eq_nil_of_length_eq_zero (by omega)
      subst hl
      have hok : createTag db u n = .ok (a, db) := by
        simp [createTag, createTagRace, hc, single]
      rw [hok] at h
      cases h
      exact ⟨by simp [tagKeyCount, hc], hok⟩
  · intro db₀ db₁ u n t h0 h1
    have hdup : jsIncludes DbErr.duplicateKey.msg "duplicate key" = true := by decide
    simp [createTagRace, h0, h1, single, insertTagRow, hdup]

/-- C4 witness: trimming and idempotence on the empty store, and the
duplicate-key race resolution against a snapshot already holding the
key. -/
theorem c4_create_tag_idempotent_race_witness :
    (tagKeyCount (DB.mk [] [⟨0, "u", "a", 0⟩] [] [] 1 0) "u" (jsTrim " a ") = 1
      ∧ createTag (DB.mk [] [⟨0, "u", "a", 0⟩] [] [] 1 0) "u" " a "
          = .ok (⟨0, "u", "a", 0⟩, DB.mk [] [⟨0, "u", "a", 0⟩] [] [] 1 0))
    ∧ createTagRace emptyDb (DB.mk [] [⟨0, "u", "a", 0⟩] [] [] 1 0) "u" " a "
        = .ok (⟨0, "u", "a", 0⟩, DB.mk [] [⟨0, "u", "a", 0⟩] [] [] 1 0) :=
  ⟨c4_create_tag_idempotent_race.1 emptyDb "u" " a " ⟨0, "u", "a", 0⟩
      (DB.mk [] [⟨0, "u", "a", 0⟩] [] [] 1 0) (by decide) (by decide),
   c4_create_tag_idempotent_race.2 emptyDb (DB.mk [] [⟨0, "u", "a", 0⟩] [] [] 1 0)
      "u" " a " ⟨0, "u", "a", 0⟩ (by decide) (by decide)⟩

/-- Filter record of a list request with `startDate = endDate = d` (a
date-only value) and no other filters. -/
def sameDayFilters (d : Nat) : BookmarkFilters :=
  { startDate := some (.dateOnly d), endDate := some (.dateOnly d) }

/-- The full-calendar-day predicate the equal-dates branch produces. -/
def dayPred (d : Nat) : Nat → Bool :=
  fun c => decide (dayStartMs d ≤ c) && decide (c ≤ dayEndMs d)

/-- Unfolding of `getBookmarks` once the date filter compiled
successfully. -/
theorem getBookmarks_ok (table : List ListRow) (u : String) (f : BookmarkFilters)
    (dOk : Nat → Bool) (h : datePred f.startDate f.endDate = .ok dOk) :
    getBookmarks table u f
      = .ok (((matchedRows table u f dOk).drop (jsOrNat f.offset 0)).take
          (jsOrNat f.limit 20)) := by
  simp only [getBookmarks, h]

/-- JavaScript `x || 0` on a present value is the value itself. -/
theorem jsOrNat_some_zero (o : Nat) : jsOrNat (some o) 0 = o := by
  by_cases h : o = 0 <;> simp [jsOrNat, h]

/-- C5: with equal date-only start and end dates the list filter keeps a
row iff its creation instant lies in that full calendar day
(00:00:00.000 - 23:59:59.999 UTC); with distinct or one-sided bounds each
bound applies independently and inclusively, a date-only start
normalizing to midnight and a date-only end to end-of-day; concretely,
for startDate = endDate = 2024-05-01 a bookmark created at
2024-05-01T23:59:00Z is returned and one created at 2024-05-02T00:00:01Z
is not. -/
theorem c5_date_range_rule :
    (∀ (table : List ListRow) (u : String) (d : Nat),
        (table.filter (rowMatches u (sameDayFilters d) (dayPred d))).length ≤ 20 →
        getBookmarks table u (sameDayFilters d)
            = .ok (matchedRows table u (sameDayFilters d) (dayPred d))
        ∧ ∀ r : ListRow, r ∈ matchedRows table u (sameDayFilters d) (dayPred d)
            ↔ r ∈ table ∧ r.user_id = u
              ∧ dayStartMs d ≤ r.created_at ∧ r.created_at ≤ dayEndMs d)
    ∧ (∀ s e : DateParam, s ≠ e →
        datePred (some s) (some e)
          = .ok fun c => decide (startBound s ≤ c) && decide (c ≤ endBound e))
    ∧ (∀ s : DateParam, datePred (some s) none = .ok fun c => decide (startBound s ≤ c))
    ∧ (∀ e : DateParam, datePred none (some e) = .ok fun c => decide (c ≤ endBound e))
    ∧ (∀ d : Nat, startBound (.dateOnly d) = dayStartMs d ∧ endBound (.dateOnly d) = dayEndMs d)
    ∧ getBookmarks
        [⟨1, "u", "t", none, [], 1714607940000⟩, ⟨2, "u", "t", none, [], 1714608001000⟩]
        "u" (sameDayFilters 19844)
        = .ok [⟨1, "u", "t", none, [], 1714607940000⟩] := by
  refine ⟨?_, ?_, ?_, ?_, ?_, ?_⟩
  · intro table u d hle
    have hdp : datePred (sameDayFilters d).startDate (sameDayFilters d).endDate
        = .ok (dayPred d) := by
      show datePred (some (.dateOnly d)) (some (.dateOnly d)) = .ok (dayPred d)
      unfold datePred
      dsimp only
      rw [if_pos rfl]
      rfl
    constructor
    · rw [getBookmarks_ok table u (sameDayFilters d) (dayPred d) hdp]
      have hlen : (matchedRows table u (sameDayFilters d) (dayPred d)).length ≤ 20 := by
        rw [matchedRows, (List.perm_insertionSort _ _).length_eq]
        exact hle
      have h0 : jsOrNat (sameDayFilters d).offset 0 = 0 := rfl
      have h20 : jsOrNat (sameDayFilters d).limit 20 = 20 := rfl
      rw [h0, h20, List.drop_zero, List.take_of_length_le hlen]
    · intro r
      rw [matchedRows, (List.perm_insertionSort createdDesc _).mem_iff, List.mem_filter]
      simp [rowMatches, sameDayFilters, strTruthy, dayPred, and_assoc]
  · intro s e hne
    simp [datePred, hne]
  · intro s; rfl
  · intro e; rfl
  · intro d; exact ⟨rfl, rfl⟩
  · decide

/-- C5 witness: the same-date rule instantiated on a two-row table for
2024-05-01. -/
theorem c5_date_range_rule_witness :
    getBookmarks
        [⟨1, "u", "t", none, [], 1714607940000⟩, ⟨2, "u", "t", none, [], 1714608001000⟩]
        "u" (sameDayFilters 19844)
      = .ok (matchedRows
          [⟨1, "u", "t", none, [], 1714607940000⟩, ⟨2, "u", "t", none, [], 1714608001000⟩]
          "u" (sameDayFilters 19844) (dayPred 19844))
    ∧ (⟨1, "u", "t", none, [], 1714607940000⟩ ∈ matchedRows
          [⟨1, "u", "t", none, [], 1714607940000⟩, ⟨2, "u", "t", none, [], 1714608001000⟩]
          "u" (sameDayFilters 19844) (dayPred 19844)
        ↔ ⟨1, "u", "t", none, [], 1714607940000⟩ ∈
            ([⟨1, "u", "t", none, [], 1714607940000⟩, ⟨2, "u", "t", none, [], 1714608001000⟩] : List ListRow)
          ∧ ("u" : String) = "u"
          ∧ dayStartMs 19844 ≤ 1714607940000 ∧ 1714607940000 ≤ dayEndMs 19844) :=
  ⟨(c5_date_range_rule.1
      [⟨1, "u", "t", none, [], 1714607940000⟩, ⟨2, "u", "t", none, [], 1714608001000⟩]
      "u" 19844 (by decide)).1,
   (c5_date_range_rule.1
      [⟨1, "u", "t", none, [], 1714607940000⟩, ⟨2, "u", "t", none, [], 1714608001000⟩]
      "u" 19844 (by decide)).2 ⟨1, "u", "t", none, [], 1714607940000⟩⟩

/-- C7: for a fixed filter set the list is ordered by creation time
descending and windowed by `range(offset, offset+limit-1)` with default
limit 20; when at least 4 rows match, `limit=2, offset=0` and `limit=2,
offset=2` return contiguous and disjoint slices of that descending
order. -/
theorem c7_pagination_slices :
    ∀ (table : List ListRow) (u : String) (f : BookmarkFilters) (dOk : Nat → Bool),
      datePred f.startDate f.endDate = .ok dOk →
      4 ≤ (matchedRows table u f dOk).length →
      ((matchedRows table u f dOk).map (fun r => r.id)).Nodup →
      getBookmarks table u { f with limit := some 2, offset := some 0 }
          = .ok ((matchedRows table u f dOk).take 2)
      ∧ getBookmarks table u { f with limit := some 2, offset := some 2 }
          = .ok (((matchedRows table u f dOk).drop 2).take 2)
      ∧ (matchedRows table u f dOk).take 2 ++ ((matchedRows table u f dOk).drop 2).take 2
          = (matchedRows table u f dOk).take 4
      ∧ ((matchedRows table u f dOk).take 2).Disjoint
          (((matchedRows table u f dOk).drop 2).take 2)
      ∧ List.Sorted createdDesc (matchedRows table u f dOk)
      ∧ ∀ off : Nat,
          getBookmarks table u { f with limit := none, offset := some off }
            = .ok (((matchedRows table u f dOk).drop off).take 20) := by
  intro table u f dOk hdp h4 hnd
  have hnodup : (matchedRows table u f dOk).Nodup := List.Nodup.of_map _ hnd
  refine ⟨?_, ?_, ?_, ?_, ?_, ?_⟩
  · exact getBookmarks_ok table u { f with limit := some 2, offset := some 0 } dOk hdp
  · exact getBookmarks_ok table u { f with limit := some 2, offset := some 2 } dOk hdp
  · simpa using (List.take_add (matchedRows table u f dOk) 2 2).symm
  · exact List.disjoint_of_subset_right (List.take_subset 2 _)
      (List.disjoint_take_drop hnodup (le_refl 2))
  · exact List.sorted_insertionSort createdDesc _
  · intro off
    rw [getBookmarks_ok table u { f with limit := none, offset := some off } dOk hdp]
    rw [show jsOrNat (some off) 0 = off from jsOrNat_some_zero off]
    rfl

/-- A four-row table with pairwise distinct ids and creation times. -/
def c7tbl : List ListRow :=
  [⟨1, "u", "t", none, [], 30⟩, ⟨2, "u", "t", none, [], 20⟩,
   ⟨3, "u", "t", none, [], 10⟩, ⟨4, "u", "t", none, [], 40⟩]

/-- C7 witness: the two pagination windows on a concrete four-row
table. -/
theorem c7_pagination_slices_witness :
    getBookmarks c7tbl "u" { limit := some 2, offset := some 0 }
        = .ok ((matchedRows c7tbl "u" {} fun _ => true).take 2)
    ∧ getBookmarks c7tbl "u" { limit := some 2, offset := some 2 }
        = .ok (((matchedRows c7tbl "u" {} fun _ => true).drop 2).take 2) :=
  ⟨(c7_pagination_slices c7tbl "u" {} (fun _ => true) rfl (by decide) (by decide)).1,
   (c7_pagination_slices c7tbl "u" {} (fun _ => true) rfl (by decide) (by decide)).2.1⟩

/-- Response-envelope invariant: `{success, data}` on success,
`{success:false, error}` on failure. -/
abbrev envelopeOk {α : Type} (r : ApiResponse α) : Prop :=
  (r.success = true → r.error = none ∧ r.data.isSome = true)
  ∧ (r.success = false → r.error.isSome = true ∧ r.data = none)

/-- C10: route-level behaviour — a bookmark create missing url or title
answers 400 without any service call; tag and category creates require a
non-empty name and answer 400 otherwise without any service call; every
modelled route answers 401 when the `x-user-id` header is absent or
empty; and every response of every modelled route satisfies the
`{success, data}` / `{success:false, error}` envelope. -/
theorem c10_validation_auth_envelope :
    (∀ (db : DB) (req : PostBookmarkReq) (u : String),
        authCheck req.xUserId = some u →
        (strTruthy req.url = none ∨ strTruthy req.title = none) →
        postBookmarkHandler db req
          = (⟨400, false, none, some "URL and title are required", false⟩, db))
    ∧ (∀ (db : DB) (x name : Option String) (u : String),
        authCheck x = some u → tagNameValid name = none →
        postTagHandler db x name
          = (⟨400, false, none,
              some "Tag name is required and must be a non-empty string", false⟩, db))
    ∧ (∀ (db : DB) (x name : Option String) (u : String),
        authCheck x = some u → strTruthy name = none →
        postCategoryHandler db x name
          = (⟨400, false, none, some "Category name is required", false⟩, db))
    ∧ (∀ (db : DB) (req : PostBookmarkReq), authCheck req.xUserId = none →
        postBookmarkHandler db req = (unauthorized, db))
    ∧ (∀ (db : DB) (x : Option String) (bid : Nat), authCheck x = none →
        getBookmarkByIdHandler db x bid = unauthorized)
    ∧ (∀ (db : DB) (x : Option String) (bid : Nat) (ts : Option (List String)),
        authCheck x = none → putBookmarkTagsHandler db x bid ts = (unauthorized, db))
    ∧ (∀ (db : DB) (x name : Option String), authCheck x = none →
        postTagHandler db x name = (unauthorized, db))
    ∧ (∀ (db : DB) (x name : Option String) (tid : Nat), authCheck x = none →
        putTagHandler db x tid name = (unauthorized, db))
    ∧ (∀ (db : DB) (x name : Option String), authCheck x = none →
        postCategoryHandler db x name = (unauthorized, db))
    ∧ (∀ (db : DB) (req : PostBookmarkReq), envelopeOk (postBookmarkHandler db req).1)
    ∧ (∀ (db : DB) (x : Option String) (bid : Nat),
        envelopeOk (getBookmarkByIdHandler db x bid))
    ∧ (∀ (db : DB) (x : Option String) (bid : Nat) (ts : Option (List String)),
        envelopeOk (putBookmarkTagsHandler db x bid ts).1)
    ∧ (∀ (db : DB) (x name : Option String), envelopeOk (postTagHandler db x name).1)
    ∧ (∀ (db : DB) (x name : Option String) (tid : Nat),
        envelopeOk (putTagHandler db x tid name).1)
    ∧ (∀ (db : DB) (x name : Option String), envelopeOk (postCategoryHandler db x name).1) := by
  refine ⟨?_, ?_, ?_, ?_, ?_, ?_, ?_, ?_, ?_, ?_, ?_, ?_, ?_, ?_, ?_⟩
  · intro db req u hu hval
    rcases hval with hv | hv <;> simp [postBookmarkHandler, hu, hv]
  · intro db x name u hu hval
    simp [postTagHandler, hu, hval]
  · intro db x name u hu hval
    simp [postCategoryHandler, hu, hval]
  · intro db req hu
    simp [postBookmarkHandler, hu]
  · intro db x bid hu
    simp [getBookmarkByIdHandler, hu]
  · intro db x bid ts hu
    simp [putBookmarkTagsHandler, hu]
  · intro db x name hu
    simp [postTagHandler, hu]
  · intro db x name tid hu
    simp [putTagHandler, hu]
  · intro db x name hu
    simp [postCategoryHandler, hu]
  · intro db req
    unfold postBookmarkHandler
    split
    · exact ⟨(by intro h; cases h), fun _ => ⟨rfl, rfl⟩⟩
    · split
      · split
        · exact ⟨fun _ => ⟨rfl, rfl⟩, by intro h; cases h⟩
        · exact ⟨(by intro h; cases h), fun _ => ⟨rfl, rfl⟩⟩
      · exact ⟨(by intro h; cases h), fun _ => ⟨rfl, rfl⟩⟩
  · intro db x bid
    unfold getBookmarkByIdHandler
    split
    · exact ⟨(by intro h; cases h), fun _ => ⟨rfl, rfl⟩⟩
    · split
      · exact ⟨fun _ => ⟨rfl, rfl⟩, by intro h; cases h⟩
      · exact ⟨(by intro h; cases h), fun _ => ⟨rfl, rfl⟩⟩
  · intro db x bid ts
    unfold putBookmarkTagsHandler
    split
    · exact ⟨(by intro h; cases h), fun _ => ⟨rfl, rfl⟩⟩
    · split
      · exact ⟨(by intro h; cases h), fun _ => ⟨rfl, rfl⟩⟩
      · split
        · exact ⟨fun _ => ⟨rfl, rfl⟩, by intro h; cases h⟩
        · exact ⟨(by intro h; cases h), fun _ => ⟨rfl, rfl⟩⟩
  · intro db x name
    unfold postTagHandler
    split
    · exact ⟨(by intro h; cases h), fun _ => ⟨rfl, rfl⟩⟩
    · split
      · exact ⟨(by intro h; cases h), fun _ => ⟨rfl, rfl⟩⟩
      · split
        · exact ⟨fun _ => ⟨rfl, rfl⟩, by intro h; cases h⟩
        · exact ⟨(by intro h; cases h), fun _ => ⟨rfl, rfl⟩⟩
  · intro db x name tid
    unfold putTagHandler
    split
    · exact ⟨(by intro h; cases h), fun _ => ⟨rfl, rfl⟩⟩
    · split
      · exact ⟨(by intro h; cases h), fun _ => ⟨rfl, rfl⟩⟩
      · split
        · exact ⟨fun _ => ⟨rfl, rfl⟩, by intro h; cases h⟩
        · exact ⟨(by intro h; cases h), fun _ => ⟨rfl, rfl⟩⟩
  · intro db x name
    unfold postCategoryHandler
    split
    · exact ⟨(by intro h; cases h), fun _ => ⟨rfl, rfl⟩⟩
    · split
      · exact ⟨(by intro h; cases h), fun _ => ⟨rfl, rfl⟩⟩
      · split
        · exact ⟨fun _ => ⟨rfl, rfl⟩, by intro h; cases h⟩
        · exact ⟨(by intro h; cases h), fun _ => ⟨rfl, rfl⟩⟩

/-- C10 witness: concrete instances — missing title, blank tag name,
missing category name, missing identity header, and the envelope of a
successful tag create. -/
theorem c10_validation_auth_envelope_witness :
    postBookmarkHandler emptyDb ⟨some "u", some "http://e", none, none, none, none⟩
        = (⟨400, false, none, some "URL and title are required", false⟩, emptyDb)
    ∧ postTagHandler emptyDb (some "u") (some "   ")
        = (⟨400, false, none,
            some "Tag name is required and must be a non-empty string", false⟩, emptyDb)
    ∧ postCategoryHandler emptyDb (some "u") none
        = (⟨400, false, none, some "Category name is required", false⟩, emptyDb)
    ∧ getBookmarkByIdHandler emptyDb none 0 = unauthorized
    ∧ envelopeOk (postTagHandler emptyDb (some "u") (some "a")).1 :=
  ⟨c10_validation_auth_envelope.1 emptyDb
      ⟨some "u", some "http://e", none, none, none, none⟩ "u" (by decide)
      (Or.inr (by decide)),
   (c10_validation_auth_envelope.2.1) emptyDb (some "u") (some "   ") "u"
      (by decide) (by decide),
   (c10_validation_auth_envelope.2.2.1) emptyDb (some "u") none "u"
      (by decide) (by decide),
   (c10_validation_auth_envelope.2.2.2.2.1) emptyDb none 0 (by decide),
   (c10_validation_auth_envelope.2.2.2.2.2.2.2.2.2.2.2.2.1) emptyDb (some "u") (some "a")⟩

/-- Schema invariants maintained by the store: the `UNIQUE(user_id,
name)` constraint on `tags`, and freshness of the id source over the rows
it generated. -/
abbrev WFdb (db : DB) : Prop :=
  (db.tags.map fun t => (t.user_id, t.name)).Nodup
  ∧ (∀ t ∈ db.tags, t.id < db.nextId)
  ∧ (∀ r ∈ db.bookmark_tags, r.id < db.nextId)

/-- Under the uniqueness constraint, the key query returns at most one
row. -/
theorem filter_key_subsingleton (l : List TagRow) (u m : String)
    (h : (l.map fun t => (t.user_id, t.name)).Nodup) :
    l.filter (fun t => t.user_id == u && t.name == m) = []
    ∨ ∃ t, l.filter (fun t => t.user_id == u && t.name == m) = [t]
        ∧ t ∈ l ∧ t.user_id = u ∧ t.name = m := by
  induction l with
  | nil => exact Or.inl rfl
  | cons a l ih =>
    rw [List.map_cons, List.nodup_cons] at h
    obtain ⟨ha, hl⟩ := h
    by_cases hpa : (a.user_id == u && a.name == m) = true
    · have hau : a.user_id = u ∧ a.name = m := by
        simpa [Bool.and_eq_true, beq_iff_eq] using hpa
      have hrest : l.filter (fun t => t.user_id == u && t.name == m) = [] := by
        apply List.filter_eq_nil_iff.mpr
        intro x hx hpx
        have hxa : (x.user_id, x.name) = (a.user_id, a.name) := by
          have : x.user_id = u ∧ x.name = m := by
            simpa [Bool.and_eq_true, beq_iff_eq] using hpx
          rw [this.1, this.2, hau.1, hau.2]
        exact ha (hxa ▸ List.mem_map_of_mem (fun t => (t.user_id, t.name)) hx)
      refine Or.inr ⟨a, ?_, List.mem_cons_self a l, hau.1, hau.2⟩
      rw [List.filter_cons, if_pos hpa, hrest]
    · rw [List.filter_cons, if_neg hpa]
      rcases ih hl with h0 | ⟨t, ht, htl, htu, htm⟩
      · exact Or.inl h0
      · exact Or.inr ⟨t, ht, List.mem_cons_of_mem a htl, htu, htm⟩

/-- The duplicate-key message satisfies the code's
`includes('duplicate key')` test. -/
theorem dupKey_includes : jsIncludes DbErr.duplicateKey.msg "duplicate key" = true := by
  decide

/-- The junction insert either hits an existing `(bookmark, tag)` link
(duplicate key) or appends a fresh row. -/
theorem insertLink_cases (db : DB) (bid tid : Nat) :
    (∃ r ∈ db.bookmark_tags, r.bookmark_id = bid ∧ r.tag_id = tid
        ∧ insertBookmarkTagRow db bid tid = .error .duplicateKey)
    ∨ insertBookmarkTagRow db bid tid
        = .ok (⟨db.nextId, bid, tid, db.now⟩,
               { db with bookmark_tags := db.bookmark_tags ++ [⟨db.nextId, bid, tid, db.now⟩],
                         nextId := db.nextId + 1 }) := by
  by_cases hany : db.bookmark_tags.any (fun r => r.bookmark_id == bid && r.tag_id == tid) = true
  · obtain ⟨r, hrmem, hrp⟩ := List.any_eq_true.mp hany
    obtain ⟨h₁, h₂⟩ : r.bookmark_id = bid ∧ r.tag_id = tid := by
      simpa [Bool.and_eq_true, beq_iff_eq] using hrp
    exact Or.inl ⟨r, hrmem, h₁, h₂, by simp [insertBookmarkTagRow, hany]⟩
  · exact Or.inr (by simp [insertBookmarkTagRow, hany])

/-- One iteration of the tag-attachment loop: it succeeds under the
schema invariants, appends only tag rows carrying `(u, trim n)` and only
junction rows of this bookmark linking to such a tag, leaves an attached
`(u, trim n)` tag behind, keeps earlier rows, and preserves the
invariants. -/
theorem addOneTag_spec (db : DB) (bid : Nat) (u n : String) (h : WFdb db) :
    ∃ db₂ : DB,
      addOneTagToBookmark db bid u n = .ok db₂
      ∧ WFdb db₂
      ∧ db.nextId ≤ db₂.nextId
      ∧ (∃ newTags : List TagRow, db₂.tags = db.tags ++ newTags
          ∧ ∀ t ∈ newTags, t.user_id = u ∧ t.name = jsTrim n)
      ∧ (∃ newLinks : List BookmarkTagRow,
          db₂.bookmark_tags = db.bookmark_tags ++ newLinks
          ∧ ∀ r ∈ newLinks, r.bookmark_id = bid ∧ db.nextId ≤ r.id
            ∧ ∃ t ∈ db₂.tags, t.id = r.tag_id ∧ t.user_id = u ∧ t.name = jsTrim n)
      ∧ (∃ t ∈ db₂.tags, t.user_id = u ∧ t.name = jsTrim n
          ∧ ∃ r ∈ db₂.bookmark_tags, r.bookmark_id = bid ∧ r.tag_id = t.id) := by
  obtain ⟨hpairs, htid, hbid⟩ := h
  rcases filter_key_subsingleton db.tags u (jsTrim n) hpairs with hfe | ⟨t0, hf1, ht0l, ht0u, ht0m⟩
  · -- no tag with the key yet: a fresh tag row is inserted, then linked
    have hfe' : findTagRows db u (jsTrim n) = [] := by simpa [findTagRows] using hfe
    have hnotin : ((u, jsTrim n)) ∉ db.tags.map fun t => (t.user_id, t.name) := by
      intro hmem
      obtain ⟨x, hxl, hxp⟩ := List.mem_map.mp hmem
      have hx : (x.user_id == u && x.name == jsTrim n) = true := by
        have h1 : x.user_id = u := congrArg Prod.fst hxp
        have h2 : x.name = jsTrim n := congrArg Prod.snd hxp
        simp [h1, h2]
      have : x ∈ db.tags.filter (fun t => t.user_id == u && t.name == jsTrim n) :=
        List.mem_filter.mpr ⟨hxl, hx⟩
      rw [hfe] at this
      cases this
    set newTag : TagRow := ⟨db.nextId, u, jsTrim n, db.now⟩ with hnewTag
    set dbT : DB := { db with tags := db.tags ++ [newTag], nextId := db.nextId + 1 } with hdbT
    have hWFT : WFdb dbT := by
      refine ⟨?_, ?_, ?_⟩
      · rw [hdbT]
        simp only [List.map_append, List.map_cons, List.map_nil]
        rw [List.nodup_append]
        exact ⟨hpairs, List.nodup_singleton _, by
          intro p hp hps
          rw [List.mem_singleton.mp hps] at hp
          exact hnotin hp⟩
      · intro t ht
        rw [hdbT] at ht ⊢
        rcases List.mem_append.mp ht with h1 | h1
        · exact Nat.lt_succ_of_lt (htid t h1)
        · rw [List.mem_singleton.mp h1, hnewTag]
          exact Nat.lt_succ_self _
      · intro r hr
        exact Nat.lt_succ_of_lt (hbid r hr)
    have htagres : addOneTagToBookmark db bid u n
        = (match insertBookmarkTagRow dbT bid newTag.id with
           | .ok (_, db₃) => Except.ok db₃
           | .error linkError =>
             if jsIncludes linkError.msg "duplicate key" then Except.ok dbT
             else Except.error ⟨linkError.msg, 400⟩) := by
      simp only [addOneTagToBookmark, hfe', single, insertTagRow, List.isEmpty_nil,
        if_true]
    have hnewmem : newTag ∈ dbT.tags := by
      rw [hdbT]; exact List.mem_append_right _ (List.mem_singleton_self _)
    rcases insertLink_cases dbT bid newTag.id with ⟨r, hrmem, hrb, hrt, herr⟩ | hok
    · refine ⟨dbT, ?_, hWFT, Nat.le_succ _, ⟨[newTag], rfl, ?_⟩, ⟨[], by simp [hdbT], by simp⟩, ?_⟩
      · rw [htagres, herr]
        simp [dupKey_includes]
      · intro t ht
        rw [List.mem_singleton.mp ht, hnewTag]
        exact ⟨rfl, rfl⟩
      · exact ⟨newTag, hnewmem, rfl, rfl, r, hrmem, hrb, hrt⟩
    · set newLink : BookmarkTagRow := ⟨dbT.nextId, bid, newTag.id, dbT.now⟩ with hnewLink
      set db₂ : DB := { dbT with bookmark_tags := dbT.bookmark_tags ++ [newLink],
                                 nextId := dbT.nextId + 1 } with hdb₂
      have hWF₂ : WFdb db₂ := by
        obtain ⟨hp, hti, hbi⟩ := hWFT
        refine ⟨hp, ?_, ?_⟩
        · intro t ht
          exact Nat.lt_succ_of_lt (hti t ht)
        · intro r hr
          rw [hdb₂] at hr
          rcases List.mem_append.mp hr with h1 | h1
          · exact Nat.lt_succ_of_lt (hbi r h1)
          · rw [List.mem_singleton.mp h1, hnewLink]
            exact Nat.lt_succ_self _
      refine ⟨db₂, ?_, hWF₂, ?_, ⟨[newTag], by simp [hdb₂, hdbT], ?_⟩, ⟨[newLink], ?_, ?_⟩, ?_⟩
      · rw [htagres, hok]
      · rw [hdb₂, hdbT]
        exact Nat.le_of_lt (Nat.lt_of_lt_of_le (Nat.lt_succ_self _) (Nat.le_succ _))
      · intro t ht
        rw [List.mem_singleton.mp ht, hnewTag]
        exact ⟨rfl, rfl⟩
      · rw [hdb₂, hdbT]
      · intro r hr
        rw [List.mem_singleton.mp hr, hnewLink]
        refine ⟨rfl, by rw [hdbT]; exact Nat.le_succ _, newTag, ?_, rfl, rfl, rfl⟩
        rw [hdb₂]; exact hnewmem
      · refine ⟨newTag, by rw [hdb₂]; exact hnewmem, rfl, rfl, newLink, ?_, rfl, rfl⟩
        rw [hdb₂]
        exact List.mem_append_right _ (List.mem_singleton_self _)
  · -- the tag already exists: it is found and linked
    have hf1' : findTagRows db u (jsTrim n) = [t0] := by simpa [findTagRows] using hf1
    have htagres : addOneTagToBookmark db bid u n
        = (match insertBookmarkTagRow db bid t0.id with
           | .ok (_, db₃) => Except.ok db₃
           | .error linkError =>
             if jsIncludes linkError.msg "duplicate key" then Except.ok db
             else Except.error ⟨linkError.msg, 400⟩) := by
      simp only [addOneTagToBookmark, hf1', single]
    rcases insertLink_cases db bid t0.id with ⟨r, hrmem, hrb, hrt, herr⟩ | hok
    · refine ⟨db, ?_, ⟨hpairs, htid, hbid⟩, le_refl _, ⟨[], by simp, by simp⟩,
        ⟨[], by simp, by simp⟩, ?_⟩
      · rw [htagres, herr]
        simp [dupKey_includes]
      · exact ⟨t0, ht0l, ht0u, ht0m, r, hrmem, hrb, hrt⟩
    · set newLink : BookmarkTagRow := ⟨db.nextId, bid, t0.id, db.now⟩ with hnewLink
      set db₂ : DB := { db with bookmark_tags := db.bookmark_tags ++ [newLink],
                                nextId := db.nextId + 1 } with hdb₂
      have hWF₂ : WFdb db₂ := by
        refine ⟨hpairs, ?_, ?_⟩
        · intro t ht
          exact Nat.lt_succ_of_lt (htid t ht)
        · intro r hr
          rw [hdb₂] at hr
          rcases List.mem_append.mp hr with h1 | h1
          · exact Nat.lt_succ_of_lt (hbid r h1)
          · rw [List.mem_singleton.mp h1, hnewLink]
            exact Nat.lt_succ_self _
      refine ⟨db₂, ?_, hWF₂, Nat.le_succ _, ⟨[], by simp [hdb₂], by simp⟩,
        ⟨[newLink], by rw [hdb₂], ?_⟩, ?_⟩
      · rw [htagres, hok]
      · intro r hr
        rw [List.mem_singleton.mp hr, hnewLink]
        exact ⟨rfl, le_refl _, t0, by rw [hdb₂]; exact ht0l, rfl, ht0u, ht0m⟩
      · refine ⟨t0, by rw [hdb₂]; exact ht0l, ht0u, ht0m, newLink, ?_, rfl, rfl⟩
        rw [hdb₂]
        exact List.mem_append_right _ (List.mem_singleton_self _)

/-- The whole attachment loop: each supplied name ends up attached, all
rows added are scoped to the user and the supplied (trimmed) names, and
earlier rows survive. -/
theorem addTags_spec (ts : List String) (db : DB) (bid : Nat) (u : String)
    (h : WFdb db) :
    ∃ db₂ : DB,
      addTagsToBookmark db bid ts u = .ok db₂
      ∧ WFdb db₂
      ∧ db.nextId ≤ db₂.nextId
      ∧ (∃ newTags : List TagRow, db₂.tags = db.tags ++ newTags
          ∧ ∀ t ∈ newTags, t.user_id = u ∧ t.name ∈ ts.map jsTrim)
      ∧ (∃ newLinks : List BookmarkTagRow,
          db₂.bookmark_tags = db.bookmark_tags ++ newLinks
          ∧ ∀ r ∈ newLinks, r.bookmark_id = bid ∧ db.nextId ≤ r.id
            ∧ ∃ t ∈ db₂.tags, t.id = r.tag_id ∧ t.user_id = u ∧ t.name ∈ ts.map jsTrim)
      ∧ (∀ n ∈ ts, ∃ t ∈ db₂.tags, t.user_id = u ∧ t.name = jsTrim n
          ∧ ∃ r ∈ db₂.bookmark_tags, r.bookmark_id = bid ∧ r.tag_id = t.id) := by
  induction ts generalizing db with
  | nil =>
    exact ⟨db, rfl, h, le_refl _, ⟨[], by simp, by simp⟩, ⟨[], by simp, by simp⟩,
      by simp⟩
  | cons n ns ih =>
    obtain ⟨db₁, haddone, hWF₁, hnext₁, ⟨nt₁, ht₁, htp₁⟩, ⟨nl₁, hb₁, hlp₁⟩,
      t₀, ht₀mem, ht₀u, ht₀m, r₀, hr₀mem, hr₀b, hr₀t⟩ := addOneTag_spec db bid u n h
    obtain ⟨db₂, haddrest, hWF₂, hnext₂, ⟨nt₂, ht₂, htp₂⟩, ⟨nl₂, hb₂, hlp₂⟩, hall₂⟩ :=
      ih db₁ hWF₁
    refine ⟨db₂, ?_, hWF₂, le_trans hnext₁ hnext₂,
      ⟨nt₁ ++ nt₂, ?_, ?_⟩, ⟨nl₁ ++ nl₂, ?_, ?_⟩, ?_⟩
    · simp only [addTagsToBookmark, haddone]
      exact haddrest
    · rw [ht₂, ht₁, List.append_assoc]
    · intro t ht
      rcases List.mem_append.mp ht with h1 | h1
      · obtain ⟨hu, hm⟩ := htp₁ t h1
        exact ⟨hu, by rw [hm]; simp⟩
      · obtain ⟨hu, hm⟩ := htp₂ t h1
        exact ⟨hu, by simp only [List.map_cons]; exact List.mem_cons_of_mem _ hm⟩
    · rw [hb₂, hb₁, List.append_assoc]
    · intro r hr
      rcases List.mem_append.mp hr with h1 | h1
      · obtain ⟨hrb, hrid, t, htmem, htid, htu, htm⟩ := hlp₁ r h1
        refine ⟨hrb, hrid, t, ?_, htid, htu, by rw [htm]; simp⟩
        rw [ht₂]
        exact List.mem_append_left _ htmem
      · obtain ⟨hrb, hrid, t, htmem, htid, htu, htm⟩ := hlp₂ r h1
        exact ⟨hrb, le_trans hnext₁ hrid, t, htmem, htid, htu,
          by simp only [List.map_cons]; exact List.mem_cons_of_mem _ htm⟩
    · intro n' hn'
      rcases List.mem_cons.mp hn' with h1 | h1
      · subst h1
        refine ⟨t₀, ?_, ht₀u, ht₀m, r₀, ?_, hr₀b, hr₀t⟩
        · rw [ht₂]; exact List.mem_append_left _ ht₀mem
        · rw [hb₂]; exact List.mem_append_left _ hr₀mem
      · exact hall₂ n' h1

/-- Clearing the junction rows of one bookmark preserves the schema
invariants. -/
theorem WFdb_clear (db : DB) (bid : Nat) (h : WFdb db) :
    WFdb (clearBookmarkTags db bid) := by
  obtain ⟨hpairs, htid, hbid⟩ := h
  refine ⟨hpairs, htid, ?_⟩
  intro r hr
  exact hbid r (List.mem_filter.mp hr).1

/-- No junction row of the bookmark survives its clearing delete. -/
theorem clear_filter_nil (db : DB) (bid : Nat) :
    (clearBookmarkTags db bid).bookmark_tags.filter (fun r => r.bookmark_id == bid)
      = [] := by
  unfold clearBookmarkTags
  dsimp only
  rw [List.filter_filter]
  apply List.filter_eq_nil_iff.mpr
  intro a _
  cases hab : a.bookmark_id == bid <;> simp [hab]

/-- After the clearing delete the view shows no tags for the bookmark. -/
theorem viewTags_clear (db : DB) (bid : Nat) :
    viewTags (clearBookmarkTags db bid) bid = [] := by
  unfold viewTags
  rw [clear_filter_nil]
  rfl

/-- `.single()` succeeds exactly on one-element results. -/
theorem single_ok_iff {α : Type} (l : List α) (r : α) :
    single l = .ok r ↔ l = [r] := by
  cases l with
  | nil => simp [single]
  | cons x xs =>
    cases xs with
    | nil => simp [single]
    | cons y ys => simp [single]

/-- Shape of a successful view read: the row is the view image of a base
bookmark row with the requested id. -/
theorem getWithTags_ok_shape (db : DB) (bid : Nat) (row : BookmarkWithTags)
    (h : getBookmarkWithTags db bid = .ok row) :
    ∃ b : BookmarkRow, b.id = bid ∧ row = viewRow db b := by
  unfold getBookmarkWithTags at h
  cases hs : single ((db.bookmarks.filter fun b => b.id == bid).map (viewRow db)) with
  | error e => rw [hs] at h; cases h
  | ok r =>
    rw [hs] at h
    cases h
    have hmap := (single_ok_iff _ _).mp hs
    rcases hfl : db.bookmarks.filter (fun b => b.id == bid) with _ | ⟨b, bs⟩
    · rw [hfl] at hmap; cases hmap
    · rw [hfl] at hmap
      simp only [List.map_cons, List.cons.injEq] at hmap
      have hbid : b.id = bid := by
        have hbmem : b ∈ db.bookmarks.filter (fun b => b.id == bid) := by
          rw [hfl]; exact List.mem_cons_self _ _
        simpa [beq_iff_eq] using (List.mem_filter.mp hbmem).2
      exact ⟨b, hbid, hmap.1.symm⟩

/-- The guard on an empty list in `updateBookmarkTags` coincides with
running the (empty) attachment loop. -/
theorem updateBookmarkTags_eq (db : DB) (bid : Nat) (ts : List String) (u : String) :
    updateBookmarkTags db bid ts u
      = match addTagsToBookmark (clearBookmarkTags db bid) bid ts u with
        | .error e => .error e
        | .ok db₂ =>
          match getBookmarkWithTags db₂ bid with
          | .error e => .error e
          | .ok row => .ok (row, db₂) := by
  cases ts with
  | nil => rfl
  | cons n ns =>
    cases haa : addTagsToBookmark (clearBookmarkTags db bid) bid (n :: ns) u with
    | error e => simp [updateBookmarkTags, haa]
    | ok d => simp [updateBookmarkTags, haa]

/-- C6: `updateBookmarkTags` replaces the bookmark's entire tag set — no
pre-existing junction row of the bookmark survives, every surviving
junction row of the bookmark links to a tag of the calling user named by
one of the supplied (trimmed) names, every supplied name ends up
attached — and with the empty list the bookmark is left tagless, the
returned view row showing an empty tag list. -/
theorem c6_update_tags_replaces :
    (∀ (db : DB) (bid : Nat) (ts : List String) (u : String)
        (row : BookmarkWithTags) (db' : DB),
        WFdb db → updateBookmarkTags db bid ts u = .ok (row, db') →
        (∀ r ∈ db.bookmark_tags, r.bookmark_id = bid → r ∉ db'.bookmark_tags)
        ∧ (∀ r ∈ db'.bookmark_tags, r.bookmark_id = bid →
            ∃ t ∈ db'.tags, t.id = r.tag_id ∧ t.user_id = u ∧ t.name ∈ ts.map jsTrim)
        ∧ (∀ n ∈ ts, ∃ t ∈ db'.tags, t.user_id = u ∧ t.name = jsTrim n
            ∧ ∃ r ∈ db'.bookmark_tags, r.bookmark_id = bid ∧ r.tag_id = t.id))
    ∧ (∀ (db : DB) (bid : Nat) (u : String) (row : BookmarkWithTags) (db' : DB),
        updateBookmarkTags db bid [] u = .ok (row, db') →
        row.tags = []
        ∧ db'.bookmark_tags.filter (fun r => r.bookmark_id == bid) = []) := by
  constructor
  · intro db bid ts u row db' hWF h
    rw [updateBookmarkTags_eq] at h
    obtain ⟨db₂, hadd, hWF₂, hnext, ⟨nt, htags, htp⟩, ⟨nl, hbts, hlp⟩, hall⟩ :=
      addTags_spec ts (clearBookmarkTags db bid) bid u (WFdb_clear db bid hWF)
    rw [hadd] at h
    dsimp only at h
    cases hget : getBookmarkWithTags db₂ bid with
    | error e => rw [hget] at h; cases h
    | ok r =>
      rw [hget] at h
      cases h
      refine ⟨?_, ?_, hall⟩
      · intro r₀ hr₀ hb₀ hmem
        rw [hbts] at hmem
        rcases List.mem_append.mp hmem with h1 | h1
        · have := (List.mem_filter.mp h1).2
          rw [hb₀] at this
          simp at this
        · obtain ⟨_, hrid, _⟩ := hlp r₀ h1
          have hlt := hWF.2.2 r₀ hr₀
          have : db.nextId ≤ r₀.id := hrid
          omega
      · intro r₀ hmem hb₀
        rw [hbts] at hmem
        rcases List.mem_append.mp hmem with h1 | h1
        · have := (List.mem_filter.mp h1).2
          rw [hb₀] at this
          simp at this
        · obtain ⟨_, _, t, htmem, htid, htu, htm⟩ := hlp r₀ h1
          exact ⟨t, htmem, htid, htu, htm⟩
  · intro db bid u row db' h
    rw [updateBookmarkTags_eq] at h
    have hzero : addTagsToBookmark (clearBookmarkTags db bid) bid [] u
        = .ok (clearBookmarkTags db bid) := rfl
    rw [hzero] at h
    dsimp only at h
    cases hget : getBookmarkWithTags (clearBookmarkTags db bid) bid with
    | error e => rw [hget] at h; cases h
    | ok r =>
      rw [hget] at h
      cases h
      refine ⟨?_, clear_filter_nil db bid⟩
      obtain ⟨b, hb, hrow⟩ := getWithTags_ok_shape _ _ _ hget
      rw [hrow]
      show viewTags (clearBookmarkTags db bid) b.id = []
      rw [hb]
      exact viewTags_clear db bid

/-- C6 witness: the empty-list clearing on `oneLinkDb`, and non-survival
of the original junction row under replacement by `["x"]`. -/
theorem c6_update_tags_replaces_witness :
    ((⟨5, "u", "http://e", "b", none, none, 0, []⟩ : BookmarkWithTags).tags = []
      ∧ (DB.mk oneLinkDb.bookmarks oneLinkDb.tags [] [] 10 0).bookmark_tags.filter
          (fun r => r.bookmark_id == 5) = [])
    ∧ (⟨2, 5, 1, 0⟩ : BookmarkTagRow) ∉
        (DB.mk oneLinkDb.bookmarks
          (oneLinkDb.tags ++ [⟨10, "u", "x", 0⟩]) [⟨11, 5, 10, 0⟩] [] 12 0).bookmark_tags :=
  ⟨c6_update_tags_replaces.2 oneLinkDb 5 "u"
      ⟨5, "u", "http://e", "b", none, none, 0, []⟩
      (DB.mk oneLinkDb.bookmarks oneLinkDb.tags [] [] 10 0) (by decide),
   (c6_update_tags_replaces.1 oneLinkDb 5 ["x"] "u"
      ⟨5, "u", "http://e", "b", none, none, 0, ["x"]⟩
      (DB.mk oneLinkDb.bookmarks
        (oneLinkDb.tags ++ [⟨10, "u", "x", 0⟩]) [⟨11, 5, 10, 0⟩] [] 12 0)
      (by decide) (by decide)).1 ⟨2, 5, 1, 0⟩ (by decide) (by decide)⟩

end SYS
